import Mathlib

/-!
Verification development for the Quiz Batch Assembly & Deduplication Engine
(frontend/app/page.tsx). Strings are modelled as `List Char`; JS floating-point
arithmetic on similarity scores is modelled exactly over `ℚ` (all quantities
involved are small exact fractions); JS exceptions are modelled with `Except`.
-/

namespace Edu

abbrev Str := List Char

/-! ### Modelled JS runtime primitives -/

/-- Whitespace test, modelling the JS regex class `\s` restricted to the
whitespace characters that occur in this development. -/
def isWs (c : Char) : Bool :=
  c == ' ' || c == '\t' || c == '\n' || c == '\r'

/-- Letter-or-digit test, modelling the Unicode classes `\p{L}\p{N}` of the
source regexes, restricted to the ASCII repertoire used by every concrete
input in this file. -/
def isWordChar (c : Char) : Bool := c.isAlpha || c.isDigit

/-- Modelled from the spec: JS `String.prototype.normalize("NFKC")`.  NFKC is
the identity on the NFKC-invariant repertoire to which all text handled in
this development belongs, so it is modelled as the identity map. -/
def nfkc (s : Str) : Str := s

/-- Modelled: JS `String.prototype.toLowerCase` (ASCII repertoire). -/
def jsLower (s : Str) : Str := s.map Char.toLower

/-- Modelled: JS `String.prototype.trim`. -/
def jsTrim (s : Str) : Str :=
  ((s.dropWhile isWs).reverse.dropWhile isWs).reverse

/-- Auxiliary state machine for `collapseWs`; `prevWs` records whether the
previous character belonged to a whitespace run already emitted. -/
def collapseWsAux (prevWs : Bool) : Str → Str
  | [] => []
  | c :: cs =>
    if isWs c then
      if prevWs then collapseWsAux true cs else ' ' :: collapseWsAux true cs
    else c :: collapseWsAux false cs

/-- Modelled: JS `replace(/\s+/g, " ")` — every maximal whitespace run becomes
a single space. -/
def collapseWs (s : Str) : Str := collapseWsAux false s

/-- Modelled: JS `replace(/[^\p{L}\p{N}\s]/gu, "")` — delete every character
that is neither a word character nor whitespace. -/
def stripNonWord (s : Str) : Str :=
  s.filter (fun c => isWordChar c || isWs c)

/-- Modelled: JS `replace(/[^\p{L}\p{N}\s]/gu, " ")` — blank out every
character that is neither a word character nor whitespace. -/
def blankNonWord (s : Str) : Str :=
  s.map (fun c => if isWordChar c || isWs c then c else ' ')

/-- Modelled: JS `replace(/\s+/g, "")` — delete all whitespace. -/
def stripAllWs (s : Str) : Str := s.filter (fun c => !isWs c)

/-- Auxiliary state machine for `wordsOf`; `cur` is the (reversed) token
currently being read. -/
def wordsOfAux (cur : Str) : Str → List Str
  | [] => if cur.isEmpty then [] else [cur.reverse]
  | c :: cs =>
    if isWs c then
      if cur.isEmpty then wordsOfAux [] cs else cur.reverse :: wordsOfAux [] cs
    else wordsOfAux (c :: cur) cs

/-- Modelled: JS `split(/\s+/)` followed by dropping empty fragments (the
source filters the split result with `w && …`, which removes exactly the
empty fragments the JS split can produce at the ends). -/
def wordsOf (s : Str) : List Str := wordsOfAux [] s

/-! ### Similarity engine (source: `STOP`, `tokenize`, `jaccard`,
`diceBigram`, `similar`, page.tsx lines 65–83) -/

/-- Source `STOP`: the fixed Thai stop-word set. -/
def STOP : List Str :=
  ["คือ", "ของ", "และ", "หรือ", "ที่", "ใน", "เป็น", "ได้", "มี", "ใด", "ใดๆ",
   "อะไร", "อย่างไร", "ใคร", "ไหน", "ข้อใด", "ต่อไปนี้", "มาก", "น้อย", "ไม่",
   "ใช่", "จาก", "เพื่อ", "เช่น", "ซึ่ง", "ดังนั้น", "โดย", "ดังกล่าว"].map String.toList

/-- Source `tokenize`: NFKC-normalize, lower-case, blank out non-word
characters, split on whitespace, drop empty tokens and stop words. -/
def tokenize (s : Str) : List Str :=
  (wordsOf (blankNonWord (jsLower (nfkc s)))).filter
    (fun w => !w.isEmpty && !decide (w ∈ STOP))

/-- Source `jaccard`: Jaccard similarity of the two token sets (JS `Set`
modelled by `List.dedup`), `0` if either set is empty. -/
def jaccard (a b : Str) : ℚ :=
  let A := (tokenize a).dedup
  let B := (tokenize b).dedup
  if A.isEmpty || B.isEmpty then 0
  else
    let inter := (A.filter (fun w => decide (w ∈ B))).length
    (inter : ℚ) / ((A.length : ℚ) + (B.length : ℚ) - (inter : ℚ))

/-- Source `diceBigram`, inner `bi`: collapse whitespace, trim, list all
overlapping 2-character substrings. -/
def bigrams (x : Str) : List Str :=
  let z := jsTrim (collapseWs x)
  (List.range (z.length - 1)).map (fun i => (z.drop i).take 2)

/-- Pointwise update of a count table, modelling `m.set(y, v)` on the JS
`Map` of bigram multiplicities. -/
def updateCount (m : Str → Nat) (y : Str) (v : Nat) : Str → Nat :=
  fun g => if g = y then v else m g

/-- Source `diceBigram`, matching loop: walk the second bigram list, consuming
one remaining occurrence from the table `m` per match; returns the number of
matches (the multiset-intersection size). -/
def consumeCount (m : Str → Nat) : List Str → Nat
  | [] => 0
  | y :: ys =>
    let c := m y
    if 0 < c then consumeCount (updateCount m y (c - 1)) ys + 1
    else consumeCount m ys

/-- Source `diceBigram`: Dice coefficient over bigram multisets, `0` if either
bigram list is empty. -/
def diceBigram (s t : Str) : ℚ :=
  let A := bigrams s
  let B := bigrams t
  if A.isEmpty || B.isEmpty then 0
  else
    let inter := consumeCount (fun g => A.count g) B
    (2 * (inter : ℚ)) / ((A.length : ℚ) + (B.length : ℚ))

/-- Source `similar`: the maximum of the two measures. -/
def similar (a b : Str) : ℚ := max (jaccard a b) (diceBigram a b)

/-! ### Key generator (source: `keyFor`, page.tsx lines 61–62) -/

/-- Source `keyFor`, on the question text: NFKC-normalize, collapse whitespace
runs to a single space, delete non-word non-space characters, trim,
lower-case. -/
def keyOfText (s : Str) : Str :=
  jsLower (jsTrim (stripNonWord (collapseWs (nfkc s))))

/-! ### Data model (source: `QuizItem`, `idxToLetter`, `letterToIdx`) -/

inductive QType where
  | mcq
  | tf
deriving DecidableEq

/-- Source `QuizItem`. -/
structure QuizItem where
  type : QType
  question : Str
  choices : Option (List Str)
  answer : Str
  explain : Option Str
deriving DecidableEq

/-- Source `keyFor` applied to a quiz item (it reads only `question`). -/
def keyFor (q : QuizItem) : Str := keyOfText q.question

/-- Source `idxToLetter = ["ก","ข","ค","ง"]`. -/
def idxToLetter : List Str :=
  ["ก".toList, "ข".toList, "ค".toList, "ง".toList]

/-- Source `letterToIdx = {ก:0, ข:1, ค:2, ง:3}` (record lookup, `undefined`
modelled as `none`). -/
def letterToIdx (s : Str) : Option Nat :=
  if s = "ก".toList then some 0
  else if s = "ข".toList then some 1
  else if s = "ค".toList then some 2
  else if s = "ง".toList then some 3
  else none

/-! ### Canonicalizer (source: `toStr`, `stripChoiceLabel`,
`normalizeFromAPI`, page.tsx lines 51–52 and 106–152) -/

/-- Raw record consumed by the canonicalizer.  A JS field that is absent (or
`undefined`) is `none`; a present value is represented by the string JS
`toStr` would see for it (`String(v)` for non-strings). -/
structure RawItem where
  type : Option Str
  question : Option Str
  choices : Option (List Str)
  answer : Option Str
  explain : Option Str
deriving DecidableEq

/-- Source `toStr` on an optional field: absent values become `""`, then the
result is trimmed. -/
def toStrOpt (v : Option Str) : Str := jsTrim (v.getD [])

/-- Source `stripChoiceLabel`: remove one leading `\s*[กขคง]\)\s*` prefix if
present, then trim. -/
def stripChoiceLabel (s : Str) : Str :=
  match s.dropWhile isWs with
  | c :: rp :: rest =>
    if decide (c ∈ ['ก', 'ข', 'ค', 'ง']) && decide (rp = ')') then
      jsTrim (rest.dropWhile isWs)
    else jsTrim s
  | _ => jsTrim s

/-- Source placeholder text for a missing choice slot `n`. -/
def placeholderChoice (n : Nat) : Str :=
  "ตัวเลือกที่ ".toList ++ (Nat.repr n).toList

/-- Digit-string value; `none` when a non-digit occurs.  The empty string
yields `some 0`. -/
def digitsVal (s : Str) : Option Nat :=
  if s.all Char.isDigit then
    some (s.foldl (fun a c => a * 10 + (c.toNat - '0'.toNat)) 0)
  else none

/-- Splitter on the decimal point, auxiliary for `jsNumber`. -/
def splitDotAux (cur : Str) : Str → List Str
  | [] => [cur.reverse]
  | c :: cs =>
    if c = '.' then cur.reverse :: splitDotAux [] cs
    else splitDotAux (c :: cur) cs

def splitDot (s : Str) : List Str := splitDotAux [] s

/-- Modelled from the spec: the JS builtin `Number(string)` on the decimal
fragment of its grammar (optional sign, digits, at most one decimal point;
the empty/whitespace string is `0`).  `none` models `NaN`. -/
def jsNumber (s : Str) : Option ℚ :=
  let t := jsTrim s
  if t.isEmpty then some 0
  else
    let signed : ℚ × Str :=
      match t with
      | '-' :: r => (-1, r)
      | '+' :: r => (1, r)
      | _ => (1, t)
    let sign := signed.1
    let u := signed.2
    if u.isEmpty then none
    else
      match splitDot u with
      | [d] => (digitsVal d).map (fun n => sign * (n : ℚ))
      | [d1, d2] =>
        if d1.isEmpty && d2.isEmpty then none
        else
          match digitsVal d1, digitsVal d2 with
          | some n1, some n2 =>
            some (sign * ((n1 : ℚ) + (n2 : ℚ) / ((10 : ℚ) ^ d2.length)))
          | _, _ => none
      | _ => none

/-- Modelled: JS array indexing `l[q]` for a Number `q`: an element for an
integral in-range index, `undefined` (`none`) otherwise — in particular for
every fractional `q`. -/
def jsIndexStr (l : List Str) (q : ℚ) : Option Str :=
  if q.den = 1 ∧ 0 ≤ q.num then l.get? q.num.toNat else none

/-- A JS runtime exception (here: `TypeError` from calling `.replace` on
`undefined`). -/
inductive JsErr where
  | typeErr
deriving DecidableEq

instance {ε α : Type} [DecidableEq ε] [DecidableEq α] : DecidableEq (Except ε α) := fun a b =>
  match a, b with
  | .ok x, .ok y => decidable_of_iff (x = y) (by simp)
  | .error x, .error y => decidable_of_iff (x = y) (by simp)
  | .ok _, .error _ => isFalse (by simp)
  | .error _, .ok _ => isFalse (by simp)

/-- Source `normalizeFromAPI`, mcq `correctAnswer` fallback chain (page.tsx
lines 127–137): accept a valid letter; else try the numeric interpretation
(1-based for 1..4, else 0-based), where a fractional in-range index makes
`idxToLetter[idx]` `undefined` and the subsequent `answer.replace` call throw
a `TypeError`; else match against the choice texts ignoring whitespace; else
default to `"ก"`. -/
def resolveMcqAnswer (choices : List Str) (a : Str) : Except JsErr Str :=
  if decide (a ∈ idxToLetter) then .ok a
  else
    let afterNum : Option Str :=
      match jsNumber a with
      | none => some a
      | some num =>
        let idx : ℚ := if 1 ≤ num ∧ num ≤ 4 then num - 1 else num
        if 0 ≤ idx ∧ idx < 4 then jsIndexStr idxToLetter idx else some a
    match afterNum with
    | none => .error .typeErr
    | some a2 =>
      if decide (a2 ∈ idxToLetter) then .ok a2
      else
        match choices.findIdx? (fun c => decide (stripAllWs c = stripAllWs a2)) with
        | some i => .ok ((idxToLetter.get? i).getD "ก".toList)
        | none => .ok "ก".toList

/-- Source truthy synonym set for true/false answers. -/
def trueSynonyms : List Str :=
  ["true", "t", "1", "yes", "y", "จริง", "ถูก"].map String.toList

/-- Source falsy synonym set for true/false answers. -/
def falseSynonyms : List Str :=
  ["false", "f", "0", "no", "n", "เท็จ", "ผิด"].map String.toList

/-- Source true/false answer resolution (page.tsx lines 142–147): keep an
already-canonical token, translate a recognized synonym, default to the false
token. -/
def tfResolve (answer : Str) : Str :=
  if answer = "true".toList ∨ answer = "false".toList then answer
  else if decide (answer ∈ trueSynonyms) then "true".toList
  else if decide (answer ∈ falseSynonyms) then "false".toList
  else "false".toList

/-- Source `normalizeFromAPI`, mcq choice preparation (page.tsx lines
119–126): strip option-label prefixes, keep at most 4 trimmed non-empty
choices, pad the missing slots with numbered placeholders. -/
def mcqChoices (choicesRaw : List Str) : List Str :=
  let mapped := ((choicesRaw.map stripChoiceLabel).filter (fun c => !c.isEmpty)).take 4
  if mapped.length < 4 then
    mapped ++ (List.range (4 - mapped.length)).map
      (fun i => placeholderChoice (mapped.length + i + 1))
  else mapped

/-- Source `normalizeFromAPI` body for one raw record; `.ok none` is a
silently dropped record, `.error` a thrown JS exception. -/
def normalizeOne (r : RawItem) : Except JsErr (Option QuizItem) :=
  let ty := jsLower (toStrOpt r.type)
  let question := toStrOpt r.question
  let answer := jsLower (toStrOpt r.answer)
  let explain := r.explain.map jsTrim
  if ty.isEmpty || question.isEmpty then .ok none
  else if ty = "mcq".toList then
    let choices := mcqChoices (r.choices.getD [])
    match resolveMcqAnswer choices answer with
    | .error e => .error e
    | .ok ans => .ok (some ⟨.mcq, question, some choices, ans, explain⟩)
  else
    .ok (some ⟨.tf, question, none, tfResolve answer, explain⟩)

/-- Source `normalizeFromAPI` over a batch: records are canonicalized in
order, dropped records are skipped, and a thrown exception aborts the whole
batch. -/
def normalizeFromAPI : List RawItem → Except JsErr (List QuizItem)
  | [] => .ok []
  | r :: rs =>
    match normalizeOne r with
    | .error e => .error e
    | .ok h =>
      match normalizeFromAPI rs with
      | .error e => .error e
      | .ok t =>
        match h with
        | some q => .ok (q :: t)
        | none => .ok t

/-! ### Shuffler/Remapper (source: `shuffle`, `shuffleAndRemapBatch`,
page.tsx lines 51–58 and 155–169).  The Fisher–Yates `shuffle` draws from
`Math.random`; its possible outputs are exactly the permutations of its
input, so the two shuffle call sites are modelled by explicit permutation
parameters (`pb` for the batch order, `pc i` for the choices of the item at
position `i`), constrained to be permutations in every theorem. -/

/-- Source `shuffleAndRemapBatch`, body of the `map` for one item, with the
inner `shuffle(original)` call replaced by the supplied permutation `sh`. -/
def shuffleRemapOne (sh : List Str → List Str) (q : QuizItem) : QuizItem :=
  match q.type, q.choices with
  | QType.mcq, some cs =>
    if cs.isEmpty then q
    else
      let original := cs
      let correctText : Option Str :=
        match letterToIdx q.answer with
        | some i => if i < original.length then original.get? i else none
        | none => none
      let newChoices := sh original
      let newAns :=
        match correctText with
        | some t =>
          if t.isEmpty then q.answer
          else
            match newChoices.findIdx? (fun c => decide (c = t)) with
            | some j => (idxToLetter.get? j).getD q.answer
            | none => q.answer
        | none => q.answer
      { q with choices := some newChoices, answer := newAns }
  | _, _ => q

/-- Source `shuffleAndRemapBatch`: shuffle the batch order, then remap each
multiple-choice item independently. -/
def shuffleAndRemapBatch (pb : List QuizItem → List QuizItem)
    (pc : Nat → List Str → List Str) (qs : List QuizItem) : List QuizItem :=
  (pb qs).mapIdx (fun i q => shuffleRemapOne (pc i) q)

/-! ### Batch deduplicator and collector (source: config constants and
`addMoreQuiz`, page.tsx lines 6–9 and 508–556) -/

def MAX_QUESTIONS : Nat := 15

def BATCH_SIZE : Nat := 5

def MAX_RETRY : Nat := 2

/-- Source `NEAR_DUP_TH = 0.78`. -/
def NEAR_DUP_TH : ℚ := 78 / 100

/-- Source comparison `similar(a, b) >= NEAR_DUP_TH`. -/
def nearDupB (a b : Str) : Bool := decide (NEAR_DUP_TH ≤ similar a b)

/-- Source `unique` filter inside `addMoreQuiz` (page.tsx lines 536–542): an
incoming item survives unless its key is in the seen-key bucket, or it is a
near-duplicate of an accepted same-kind question, or of a question already
collected this cycle. -/
def dedupFilter (incoming : List QuizItem) (bucket : List Str)
    (accepted collected : List QuizItem) : List QuizItem :=
  incoming.filter fun q =>
    if decide (keyFor q ∈ bucket) then false
    else if accepted.any (fun e => nearDupB q.question e.question) then false
    else if collected.any (fun e => nearDupB q.question e.question) then false
    else true

/-- Request body sent to the generation collaborator on one attempt. -/
structure GenRequest where
  n : Nat
  exclude : List Str
  topics : Option (List Str)
deriving DecidableEq

/-- Response of the generation collaborator: a payload of raw records, or a
non-ok HTTP response with an optional `detail` message. -/
inductive GenResponse where
  | ok (payload : List RawItem)
  | httpError (detail : Option Str)

/-- Early termination of the collection loop: a backend failure or a thrown
JS exception. -/
inductive LoopStop where
  | backend (msg : Str)
  | crash
deriving DecidableEq

/-- Source fallback error message `"สร้างข้อสอบไม่สำเร็จ"`. -/
def defaultGenFailMsg : Str := "สร้างข้อสอบไม่สำเร็จ".toList

/-- Source `addMoreQuiz` retry loop (page.tsx lines 520–544), with `fuel`
counting the attempts still allowed (`1 + MAX_RETRY − attempt`); `calls`
records the request of every attempt actually issued. -/
def attemptLoop (t : QType) (qs : List QuizItem) (bucket : List Str)
    (gen : Nat → GenResponse) (topicSlice : List Str) (want : Nat) :
    Nat → Nat → List QuizItem → List GenRequest →
    Except LoopStop (List QuizItem) × List GenRequest
  | 0, _, collected, calls => (.ok collected, calls)
  | fuel + 1, attempt, collected, calls =>
    if want ≤ collected.length then (.ok collected, calls)
    else
      let req : GenRequest :=
        ⟨want - collected.length,
         (qs.filter (fun q => decide (q.type = t))).map (·.question) ++
           collected.map (·.question),
         if topicSlice.isEmpty then none else some topicSlice⟩
      match gen attempt with
      | .httpError d => (.error (.backend (d.getD defaultGenFailMsg)), calls ++ [req])
      | .ok payload =>
        match normalizeFromAPI payload with
        | .error _ => (.error .crash, calls ++ [req])
        | .ok items =>
          let incoming := items.filter (fun q => decide (q.type = t))
          let uniq := dedupFilter incoming bucket
            (qs.filter (fun q => decide (q.type = t))) collected
          attemptLoop t qs bucket gen topicSlice want fuel (attempt + 1)
            (collected ++ uniq) (calls ++ [req])

/-- Source `countByType`: the number of session questions of one kind. -/
def countByType (questions : List QuizItem) (t : QType) : Nat :=
  (questions.filter (fun q => decide (q.type = t))).length

/-- Abbreviation for the shortfall request size `want = min(batchSize,
quota − alreadyHave)` computed by `addMoreQuiz` (page.tsx line 514). -/
def wantFor (questions : List QuizItem) (t : QType) : Nat :=
  min BATCH_SIZE (MAX_QUESTIONS - countByType questions t)

/-- Observable outcome of one `addMoreQuiz` invocation. -/
inductive Outcome where
  | noContext
  | quotaMet
  | success (batch : List QuizItem)
  | noNewItems
  | backendError (msg : Str)
  | typeErrorCrash
deriving DecidableEq

/-- Final state of one `addMoreQuiz` invocation: the session question list,
the seen-key bucket of the requested kind, the topic queue, and the log of
generation requests issued. -/
structure AddResult where
  outcome : Outcome
  questions : List QuizItem
  bucket : List Str
  topics : List Str
  calls : List GenRequest
deriving DecidableEq

/-- Source `addMoreQuiz` (page.tsx lines 508–556).  `topics` is the topic
queue as of the `splice` call (i.e. after the awaited best-effort
`ensureTopics`, which only ever appends); `gen` is the generation
collaborator indexed by attempt; `pb`/`pc` are the shuffle permutations (see
`shuffleAndRemapBatch`).  UI-only state (`loading`, the `score` reset and the
error banner text) is not modelled; error identity is carried by `Outcome`. -/
def addMoreQuiz (context : Str) (t : QType) (questions : List QuizItem)
    (bucket : List Str) (topics : List Str) (gen : Nat → GenResponse)
    (pb : List QuizItem → List QuizItem) (pc : Nat → List Str → List Str) :
    AddResult :=
  if context.isEmpty then ⟨.noContext, questions, bucket, topics, []⟩
  else
    let already := countByType questions t
    let remain : Int := (MAX_QUESTIONS : Int) - (already : Int)
    if remain ≤ 0 then ⟨.quotaMet, questions, bucket, topics, []⟩
    else
      let want : Nat := min BATCH_SIZE remain.toNat
      let topicSlice := topics.take want
      let topicsAfter := topics.drop want
      match attemptLoop t questions bucket gen topicSlice want
          (1 + MAX_RETRY) 0 [] [] with
      | (.error (.backend m), calls) =>
        ⟨.backendError m, questions, bucket, topicsAfter, calls⟩
      | (.error .crash, calls) =>
        ⟨.typeErrorCrash, questions, bucket, topicsAfter, calls⟩
      | (.ok collected, calls) =>
        if collected.isEmpty then
          ⟨.noNewItems, questions, bucket, topicsAfter, calls⟩
        else
          let batchReady := shuffleAndRemapBatch pb pc (collected.take want)
          ⟨.success batchReady, questions ++ batchReady,
           bucket ++ batchReady.map keyFor, topicsAfter, calls⟩

/-! ### Concrete fixtures used by the concrete test theorems -/

/-- Deterministic permutation swapping the first two entries — one concrete
output the Fisher–Yates shuffle can produce. -/
def swap01 : List Str → List Str
  | a :: b :: r => b :: a :: r
  | l => l

/-- A well-formed raw mcq record. -/
def rawA : RawItem :=
  ⟨some "mcq".toList, some "ab".toList,
   some ["w".toList, "x".toList, "y".toList, "z".toList], some "ก".toList, none⟩

/-- The canonical item of `rawA`. -/
def itemA : QuizItem :=
  ⟨.mcq, "ab".toList, some ["w".toList, "x".toList, "y".toList, "z".toList],
   "ก".toList, none⟩

/-- A raw mcq record whose `correctAnswer` is the numeric string `"1.5"`. -/
def rawBad : RawItem :=
  ⟨some "mcq".toList, some "qq".toList,
   some ["w".toList, "x".toList, "y".toList, "z".toList], some "1.5".toList, none⟩

/-- Collaborator returning the same single record on every attempt. -/
def genConst : Nat → GenResponse := fun _ => .ok [rawA]

/-- Collaborator returning one record on the first attempt and empty payloads
afterwards. -/
def genOnce : Nat → GenResponse := fun a => if a = 0 then .ok [rawA] else .ok []

/-- A multiple-choice item whose correct choice text is the empty string. -/
def itemEmptyChoice : QuizItem :=
  ⟨.mcq, "p".toList, some [[], "b".toList, "c".toList, "d".toList],
   "ก".toList, none⟩

/-- An accepted question for the deduplicator tests. -/
def qA : QuizItem :=
  ⟨.mcq, "alpha beta gamma delta".toList, none, "ก".toList, none⟩

/-- A near-duplicate of `qA` with a different key (one extra word). -/
def qB : QuizItem :=
  ⟨.mcq, "alpha beta gamma delta epsilon".toList, none, "ก".toList, none⟩

/-- An mcq item with answer marker `ข` for the shuffle witness. -/
def itemB : QuizItem :=
  ⟨.mcq, "cd".toList, some ["w".toList, "x".toList, "y".toList, "z".toList],
   "ข".toList, none⟩

/-! ### Spec-side reference definitions (for refinement comparisons) -/

/-- The Batch Deduplicator as worded by the spec (§4.4): the subsequence
of input items that are neither an exact key match against the seen-key set
nor a near-duplicate of any accepted or already-collected question. -/
def dedupSpec (incoming : List QuizItem) (bucket : List Str)
    (accepted collected : List QuizItem) : List QuizItem :=
  incoming.filter fun q =>
    decide (keyFor q ∉ bucket ∧
      (∀ e ∈ accepted, similar q.question e.question < NEAR_DUP_TH) ∧
      (∀ e ∈ collected, similar q.question e.question < NEAR_DUP_TH))

end Edu

namespace Edu

lemma listCount_eq_msetCount (A : List Str) (g : Str) :
    A.count g = ((A : Multiset Str)).count g := by
  induction A with
  | nil => simp
  | cons x xs ih =>
    rw [List.count_cons,
      show ((x :: xs : List Str) : Multiset Str) = x ::ₘ (xs : Multiset Str) from rfl,
      Multiset.count_cons, ih]
    by_cases hx : g = x
    · subst hx; simp
    · simp [hx, Ne.symm hx]

lemma consumeCount_inter (B : List Str) : ∀ (m : Str → Nat) (s : Multiset Str),
    (∀ g, m g = s.count g) →
    consumeCount m B = Multiset.card ((B : Multiset Str) ∩ s) := by
  induction B with
  | nil => intro m s _; simp [consumeCount]
  | cons y ys ih =>
    intro m s hm
    by_cases h : y ∈ s
    · have hc : 0 < m y := by rw [hm]; exact Multiset.count_pos.2 h
      have hupd : ∀ g, updateCount m y (m y - 1) g = (s.erase y).count g := by
        intro g
        by_cases hg : g = y
        · subst hg; simp [updateCount, hm, Multiset.count_erase_self]
        · simp [updateCount, hg, hm, Multiset.count_erase_of_ne hg]
      rw [show ((y :: ys : List Str) : Multiset Str) = y ::ₘ (ys : Multiset Str) from rfl,
        Multiset.cons_inter_of_pos _ h, Multiset.card_cons, ← ih _ _ hupd]
      simp only [consumeCount, if_pos hc]
    · have hc : ¬ 0 < m y := by rw [hm]; simpa using h
      rw [show ((y :: ys : List Str) : Multiset Str) = y ::ₘ (ys : Multiset Str) from rfl,
        Multiset.cons_inter_of_neg _ h, ← ih _ _ hm]
      simp only [consumeCount, if_neg hc]

lemma consumeCount_eq_card_inter (B A : List Str) :
    consumeCount (fun g => A.count g) B =
      Multiset.card ((B : Multiset Str) ∩ (A : Multiset Str)) :=
  consumeCount_inter B _ _ (fun g => listCount_eq_msetCount A g)

lemma consumeCount_le_left (B A : List Str) :
    consumeCount (fun g => A.count g) B ≤ B.length := by
  rw [consumeCount_eq_card_inter]
  calc Multiset.card ((B : Multiset Str) ∩ (A : Multiset Str)) ≤
      Multiset.card (B : Multiset Str) :=
        Multiset.card_le_card (Multiset.inter_le_left _ _)
    _ = B.length := Multiset.coe_card B

lemma consumeCount_le_right (B A : List Str) :
    consumeCount (fun g => A.count g) B ≤ A.length := by
  rw [consumeCount_eq_card_inter]
  calc Multiset.card ((B : Multiset Str) ∩ (A : Multiset Str)) ≤
      Multiset.card (A : Multiset Str) :=
        Multiset.card_le_card (Multiset.inter_le_right _ _)
    _ = A.length := Multiset.coe_card A

lemma diceBigram_comm (s t : Str) : diceBigram s t = diceBigram t s := by
  unfold diceBigram
  cases ha : (bigrams s).isEmpty <;> cases hb : (bigrams t).isEmpty
  · rw [if_neg (by simp [ha, hb]), if_neg (by simp [ha, hb]),
      consumeCount_eq_card_inter, consumeCount_eq_card_inter, Multiset.inter_comm]
    ring
  · rw [if_pos (by simp [ha, hb]), if_pos (by simp [ha, hb])]
  · rw [if_pos (by simp [ha, hb]), if_pos (by simp [ha, hb])]
  · rw [if_pos (by simp [ha, hb]), if_pos (by simp [ha, hb])]

lemma diceBigram_nonneg (s t : Str) : 0 ≤ diceBigram s t := by
  unfold diceBigram
  cases ha : (bigrams s).isEmpty <;> cases hb : (bigrams t).isEmpty
  · rw [if_neg (by simp [ha, hb])]
    positivity
  · rw [if_pos (by simp [ha, hb])]
  · rw [if_pos (by simp [ha, hb])]
  · rw [if_pos (by simp [ha, hb])]

lemma diceBigram_le_one (s t : Str) : diceBigram s t ≤ 1 := by
  unfold diceBigram
  cases ha : (bigrams s).isEmpty <;> cases hb : (bigrams t).isEmpty
  · rw [if_neg (by simp [ha, hb])]
    have h1 : 0 < (bigrams s).length :=
      List.length_pos.2 (by simpa [List.isEmpty_iff] using ha)
    have h2 : 0 < (bigrams t).length :=
      List.length_pos.2 (by simpa [List.isEmpty_iff] using hb)
    have hle1 := consumeCount_le_left (bigrams t) (bigrams s)
    have hle2 := consumeCount_le_right (bigrams t) (bigrams s)
    rw [div_le_one (by positivity)]
    have c1 : ((consumeCount (fun g => (bigrams s).count g) (bigrams t) : ℚ)) ≤
        ((bigrams t).length : ℚ) := by exact_mod_cast hle1
    have c2 : ((consumeCount (fun g => (bigrams s).count g) (bigrams t) : ℚ)) ≤
        ((bigrams s).length : ℚ) := by exact_mod_cast hle2
    linarith
  · rw [if_pos (by simp [ha, hb])]; exact zero_le_one
  · rw [if_pos (by simp [ha, hb])]; exact zero_le_one
  · rw [if_pos (by simp [ha, hb])]; exact zero_le_one

end Edu

namespace Edu

lemma interLen_eq_card (X Y : List Str) (hX : X.Nodup) :
    (X.filter (fun w => decide (w ∈ Y))).length = (X.toFinset ∩ Y.toFinset).card := by
  rw [← List.toFinset_card_of_nodup (hX.filter _)]
  congr 1
  ext w
  simp [List.mem_toFinset, List.mem_filter, Finset.mem_inter]

lemma interLen_comm (X Y : List Str) (hX : X.Nodup) (hY : Y.Nodup) :
    (X.filter (fun w => decide (w ∈ Y))).length =
      (Y.filter (fun w => decide (w ∈ X))).length := by
  rw [interLen_eq_card X Y hX, interLen_eq_card Y X hY, Finset.inter_comm]

lemma interLen_le_left (X Y : List Str) :
    (X.filter (fun w => decide (w ∈ Y))).length ≤ X.length :=
  List.length_filter_le _ _

lemma interLen_le_right (X Y : List Str) (hX : X.Nodup) (hY : Y.Nodup) :
    (X.filter (fun w => decide (w ∈ Y))).length ≤ Y.length := by
  rw [interLen_eq_card X Y hX, ← List.toFinset_card_of_nodup hY]
  exact Finset.card_le_card (Finset.inter_subset_right)

lemma jaccard_comm (a b : Str) : jaccard a b = jaccard b a := by
  unfold jaccard
  cases ha : ((tokenize a).dedup).isEmpty <;> cases hb : ((tokenize b).dedup).isEmpty
  · rw [if_neg (by simp [ha, hb]), if_neg (by simp [ha, hb]),
      interLen_comm _ _ (List.nodup_dedup _) (List.nodup_dedup _)]
    ring
  · rw [if_pos (by simp [ha, hb]), if_pos (by simp [ha, hb])]
  · rw [if_pos (by simp [ha, hb]), if_pos (by simp [ha, hb])]
  · rw [if_pos (by simp [ha, hb]), if_pos (by simp [ha, hb])]

lemma jaccard_nonneg (a b : Str) : 0 ≤ jaccard a b := by
  unfold jaccard
  cases ha : ((tokenize a).dedup).isEmpty <;> cases hb : ((tokenize b).dedup).isEmpty
  · rw [if_neg (by simp [ha, hb])]
    have h1 : 0 < ((tokenize a).dedup).length :=
      List.length_pos.2 (by simpa [List.isEmpty_iff] using ha)
    have hle2 := interLen_le_right ((tokenize a).dedup) ((tokenize b).dedup)
      (List.nodup_dedup _) (List.nodup_dedup _)
    apply div_nonneg (by positivity)
    have c2 : ((((tokenize a).dedup).filter (fun w => decide (w ∈ (tokenize b).dedup))).length : ℚ) ≤
        (((tokenize b).dedup).length : ℚ) := by exact_mod_cast hle2
    have c1 : (1 : ℚ) ≤ (((tokenize a).dedup).length : ℚ) := by exact_mod_cast h1
    linarith
  · rw [if_pos (by simp [ha, hb])]
  · rw [if_pos (by simp [ha, hb])]
  · rw [if_pos (by simp [ha, hb])]

lemma jaccard_le_one (a b : Str) : jaccard a b ≤ 1 := by
  unfold jaccard
  cases ha : ((tokenize a).dedup).isEmpty <;> cases hb : ((tokenize b).dedup).isEmpty
  · rw [if_neg (by simp [ha, hb])]
    have h1 : 0 < ((tokenize a).dedup).length :=
      List.length_pos.2 (by simpa [List.isEmpty_iff] using ha)
    have hle1 := interLen_le_left ((tokenize a).dedup) ((tokenize b).dedup)
    have hle2 := interLen_le_right ((tokenize a).dedup) ((tokenize b).dedup)
      (List.nodup_dedup _) (List.nodup_dedup _)
    have c0 : (1 : ℚ) ≤ (((tokenize a).dedup).length : ℚ) := by exact_mod_cast h1
    have c1 : ((((tokenize a).dedup).filter (fun w => decide (w ∈ (tokenize b).dedup))).length : ℚ) ≤
        (((tokenize a).dedup).length : ℚ) := by exact_mod_cast hle1
    have c2 : ((((tokenize a).dedup).filter (fun w => decide (w ∈ (tokenize b).dedup))).length : ℚ) ≤
        (((tokenize b).dedup).length : ℚ) := by exact_mod_cast hle2
    rw [div_le_one (by linarith)]
    linarith
  · rw [if_pos (by simp [ha, hb])]; exact zero_le_one
  · rw [if_pos (by simp [ha, hb])]; exact zero_le_one
  · rw [if_pos (by simp [ha, hb])]; exact zero_le_one

lemma similar_comm (a b : Str) : similar a b = similar b a := by
  rw [similar, similar, jaccard_comm, diceBigram_comm]

lemma similar_nonneg (a b : Str) : 0 ≤ similar a b :=
  le_trans (jaccard_nonneg a b) (le_max_left _ _)

lemma similar_le_one (a b : Str) : similar a b ≤ 1 :=
  max_le (jaccard_le_one a b) (diceBigram_le_one a b)

end Edu

namespace Edu

lemma jaccard_self_of_tokens {s : Str} (h : tokenize s ≠ []) : jaccard s s = 1 := by
  unfold jaccard
  have hne : ((tokenize s).dedup).isEmpty = false := by
    simp [List.isEmpty_iff, List.dedup_eq_nil, h]
  rw [if_neg (by simp [hne])]
  have hfilter : ((tokenize s).dedup).filter (fun w => decide (w ∈ (tokenize s).dedup)) =
      (tokenize s).dedup := by
    apply List.filter_eq_self.2
    intro w hw
    simpa using hw
  rw [hfilter]
  have hlen : 0 < ((tokenize s).dedup).length :=
    List.length_pos.2 (by simpa [List.isEmpty_iff] using hne)
  have hq : (0 : ℚ) < (((tokenize s).dedup).length : ℚ) := by exact_mod_cast hlen
  field_simp

lemma diceBigram_self_of_bigrams {s : Str} (h : bigrams s ≠ []) : diceBigram s s = 1 := by
  unfold diceBigram
  have hne : (bigrams s).isEmpty = false := by simp [List.isEmpty_iff, h]
  rw [if_neg (by simp [hne])]
  rw [consumeCount_eq_card_inter]
  have hc : ((bigrams s : Multiset Str) ∩ (bigrams s : Multiset Str)) = (bigrams s : Multiset Str) :=
    Multiset.ext.2 (fun a => by rw [Multiset.count_inter, Nat.min_self])
  rw [hc, Multiset.coe_card]
  have hlen : 0 < (bigrams s).length := List.length_pos.2 h
  have hq : (0 : ℚ) < ((bigrams s).length : ℚ) := by exact_mod_cast hlen
  field_simp
  ring

lemma similar_self_of_nonempty {s : Str} (h : tokenize s ≠ [] ∨ bigrams s ≠ []) :
    similar s s = 1 := by
  rcases h with h | h
  · rw [similar, jaccard_self_of_tokens h]
    exact max_eq_left (diceBigram_le_one s s)
  · rw [similar, diceBigram_self_of_bigrams h]
    exact max_eq_right (jaccard_le_one s s)

end Edu

namespace Edu

lemma collapseWsAux_of_no_ws {s : Str} (h : ∀ c ∈ s, isWs c = false) :
    ∀ b, collapseWsAux b s = s := by
  induction s with
  | nil => intro b; rfl
  | cons c cs ih =>
    intro b
    have hc : isWs c = false := h c (List.mem_cons_self c cs)
    rw [collapseWsAux, hc]
    simp only [Bool.false_eq_true, if_false]
    rw [ih (fun x hx => h x (List.mem_cons_of_mem c hx)) false]

lemma collapseWs_of_no_ws {s : Str} (h : ∀ c ∈ s, isWs c = false) :
    collapseWs s = s := collapseWsAux_of_no_ws h false

lemma dropWhile_of_no_ws {s : Str} (h : ∀ c ∈ s, isWs c = false) :
    s.dropWhile isWs = s := by
  cases s with
  | nil => rfl
  | cons c cs =>
    rw [List.dropWhile_cons, h c (List.mem_cons_self c cs)]
    simp

lemma jsTrim_of_no_ws {s : Str} (h : ∀ c ∈ s, isWs c = false) : jsTrim s = s := by
  rw [jsTrim, dropWhile_of_no_ws h,
    dropWhile_of_no_ws (fun c hc => h c (List.mem_reverse.1 hc)), List.reverse_reverse]

lemma stripNonWord_of_no_ws {s : Str} (h : ∀ c ∈ s, isWs c = false) :
    stripNonWord s = s.filter isWordChar := by
  rw [stripNonWord]
  apply List.filter_congr
  intro c hc
  rw [h c hc, Bool.or_false]

lemma keyOfText_of_no_ws {s : Str} (h : ∀ c ∈ s, isWs c = false) :
    keyOfText s = jsLower (s.filter isWordChar) := by
  rw [keyOfText, nfkc, collapseWs_of_no_ws h, stripNonWord_of_no_ws h,
    jsTrim_of_no_ws (fun c hc => h c (List.mem_of_mem_filter hc))]

end Edu

namespace Edu

lemma letterToIdx_lt_four {s : Str} {i : Nat} (h : letterToIdx s = some i) : i < 4 := by
  unfold letterToIdx at h
  split_ifs at h <;> simp at h <;> omega

lemma idxToLetter_roundTrip {j : Nat} (hj : j < 4) :
    ∃ l, idxToLetter.get? j = some l ∧ letterToIdx l = some j := by
  interval_cases j
  · exact ⟨_, rfl, by decide⟩
  · exact ⟨_, rfl, by decide⟩
  · exact ⟨_, rfl, by decide⟩
  · exact ⟨_, rfl, by decide⟩

lemma shuffleRemapOne_remap (sh : List Str → List Str) (q : QuizItem) (cs : List Str)
    (hty : q.type = .mcq) (hcs : q.choices = some cs) (hlen : cs.length = 4)
    {k : Nat} (hk : letterToIdx q.answer = some k)
    (hperm : (sh cs).Perm cs)
    (hne : cs.get? k ≠ some []) :
    ∃ (j : Nat) (t : Str),
      (shuffleRemapOne sh q).choices = some (sh cs) ∧
      letterToIdx (shuffleRemapOne sh q).answer = some j ∧
      (sh cs).get? j = some t ∧ cs.get? k = some t := by
  obtain ⟨ty, qq, ch, ans, ex⟩ := q
  simp only at hty hcs hk
  subst hty; subst hcs
  have hkl : k < 4 := letterToIdx_lt_four hk
  have hklen : k < cs.length := by omega
  obtain ⟨t, hget⟩ : ∃ t, cs.get? k = some t := by
    rw [List.get?_eq_getElem?]
    exact ⟨cs[k], by simp [hklen]⟩
  have htne : t ≠ [] := fun hcontra => hne (by rw [hget, hcontra])
  have hmem : t ∈ sh cs := by
    rw [hperm.mem_iff]
    exact List.get?_mem hget
  have hfind : ∃ j, (sh cs).findIdx? (fun c => decide (c = t)) = some j := by
    rcases hj : (sh cs).findIdx? (fun c => decide (c = t)) with _ | j
    · exfalso
      rw [List.findIdx?_eq_none_iff] at hj
      have := hj t hmem
      simp at this
    · exact ⟨j, rfl⟩
  obtain ⟨j, hj⟩ := hfind
  have hj' := hj
  rw [List.findIdx?_eq_some_iff_findIdx_eq] at hj'
  obtain ⟨hjlen, hjfind⟩ := hj'
  have hjval : (sh cs)[j] = t := by
    have := @List.findIdx_getElem _ (fun c => decide (c = t)) (sh cs)
      (by rw [hjfind]; exact hjlen)
    simp only [decide_eq_true_eq, hjfind] at this
    exact this
  have hjget : (sh cs).get? j = some t := by
    rw [List.get?_eq_getElem?, List.getElem?_eq_some_iff]
    exact ⟨hjlen, hjval⟩
  have hlen' : (sh cs).length = 4 := by rw [hperm.length_eq, hlen]
  have hjlt4 : j < 4 := by omega
  obtain ⟨l, hlget, hlidx⟩ := idxToLetter_roundTrip hjlt4
  have hcse : cs.isEmpty = false := by
    cases cs
    · simp at hlen
    · rfl
  refine ⟨j, t, ?_, ?_, hjget, hget⟩
  · simp only [shuffleRemapOne]
    rw [if_neg (by simp [hcse])]
  · simp only [shuffleRemapOne]
    rw [if_neg (by simp [hcse])]
    simp only [hk, if_pos hklen, hget, hj, hlget]
    rw [if_neg (by simp [htne])]
    simp only [Option.getD_some]
    exact hlidx

end Edu

namespace Edu

lemma dedupFilter_eq_spec (incoming : List QuizItem) (bucket : List Str)
    (accepted collected : List QuizItem) :
    dedupFilter incoming bucket accepted collected =
      dedupSpec incoming bucket accepted collected := by
  unfold dedupFilter dedupSpec
  apply List.filter_congr
  intro q _
  by_cases h1 : keyFor q ∈ bucket
  · rw [if_pos (by simpa using h1), decide_eq_false (by tauto)]
  · rw [if_neg (by simpa using h1)]
    by_cases h2 : ∃ e ∈ accepted, NEAR_DUP_TH ≤ similar q.question e.question
    · obtain ⟨e, he, hs⟩ := h2
      have ha : accepted.any (fun e => nearDupB q.question e.question) = true := by
        rw [List.any_eq_true]
        exact ⟨e, he, by simp [nearDupB, hs]⟩
      rw [ha, decide_eq_false]
      · simp
      · intro hC
        exact absurd hs (not_le.2 (hC.2.1 e he))
    · have ha : accepted.any (fun e => nearDupB q.question e.question) = false := by
        rw [List.any_eq_false]
        intro e he
        simp only [nearDupB, decide_eq_true_eq]
        exact fun hs => h2 ⟨e, he, hs⟩
      rw [ha]
      by_cases h3 : ∃ e ∈ collected, NEAR_DUP_TH ≤ similar q.question e.question
      · obtain ⟨e, he, hs⟩ := h3
        have hc : collected.any (fun e => nearDupB q.question e.question) = true := by
          rw [List.any_eq_true]
          exact ⟨e, he, by simp [nearDupB, hs]⟩
        rw [hc, decide_eq_false]
        · simp
        · intro hC
          exact absurd hs (not_le.2 (hC.2.2 e he))
      · have hc : collected.any (fun e => nearDupB q.question e.question) = false := by
          rw [List.any_eq_false]
          intro e he
          simp only [nearDupB, decide_eq_true_eq]
          exact fun hs => h3 ⟨e, he, hs⟩
        rw [hc]
        simp only [Bool.false_eq_true, if_false]
        rw [decide_eq_true]
        exact ⟨h1, fun e he => not_le.1 (fun hs => h2 ⟨e, he, hs⟩),
          fun e he => not_le.1 (fun hs => h3 ⟨e, he, hs⟩)⟩

lemma dedupFilter_not_mem_of_nearDup {incoming : List QuizItem} {bucket : List Str}
    {accepted collected : List QuizItem} {A B : QuizItem}
    (hmem : A ∈ accepted ∨ A ∈ collected)
    (hsim : NEAR_DUP_TH ≤ similar A.question B.question) :
    B ∉ dedupFilter incoming bucket accepted collected := by
  intro hB
  rw [dedupFilter, List.mem_filter] at hB
  obtain ⟨_, hpred⟩ := hB
  have hsim' : NEAR_DUP_TH ≤ similar B.question A.question := by
    rw [similar_comm]; exact hsim
  rcases hmem with h | h
  · have ha : accepted.any (fun e => nearDupB B.question e.question) = true := by
      rw [List.any_eq_true]
      exact ⟨A, h, by simp [nearDupB, hsim']⟩
    rw [ha] at hpred
    split_ifs at hpred
    simp_all
  · have ha : collected.any (fun e => nearDupB B.question e.question) = true := by
      rw [List.any_eq_true]
      exact ⟨A, h, by simp [nearDupB, hsim']⟩
    rw [ha] at hpred
    split_ifs at hpred
    simp_all

lemma dedupFilter_eq_nil {incoming : List QuizItem} {bucket : List Str}
    {accepted collected : List QuizItem}
    (h : ∀ q ∈ incoming, keyFor q ∈ bucket ∨
      ∃ e ∈ accepted, NEAR_DUP_TH ≤ similar q.question e.question) :
    dedupFilter incoming bucket accepted collected = [] := by
  rw [dedupFilter, List.filter_eq_nil_iff]
  intro q hq
  by_cases h1 : keyFor q ∈ bucket
  · rw [if_pos (by simpa using h1)]
    simp
  · rcases h q hq with h1' | ⟨e, he, hs⟩
    · exact absurd h1' h1
    · rw [if_neg (by simpa using h1)]
      have ha : accepted.any (fun e => nearDupB q.question e.question) = true := by
        rw [List.any_eq_true]
        exact ⟨e, he, by simp [nearDupB, hs]⟩
      rw [ha]
      simp

end Edu

namespace Edu

lemma attemptLoop_zero (t : QType) (qs : List QuizItem) (bucket : List Str)
    (gen : Nat → GenResponse) (topicSlice : List Str) (want : Nat)
    (attempt : Nat) (collected : List QuizItem) (calls : List GenRequest) :
    attemptLoop t qs bucket gen topicSlice want 0 attempt collected calls =
      (.ok collected, calls) := rfl

lemma attemptLoop_step_done (t : QType) (qs : List QuizItem) (bucket : List Str)
    (gen : Nat → GenResponse) (topicSlice : List Str) (want : Nat)
    {fuel attempt : Nat} {collected : List QuizItem} {calls : List GenRequest}
    (hw : want ≤ collected.length) :
    attemptLoop t qs bucket gen topicSlice want (fuel + 1) attempt collected calls =
      (.ok collected, calls) := by
  rw [attemptLoop, if_pos hw]

lemma attemptLoop_step_http (t : QType) (qs : List QuizItem) (bucket : List Str)
    (gen : Nat → GenResponse) (topicSlice : List Str) (want : Nat)
    {fuel attempt : Nat} {collected : List QuizItem} {calls : List GenRequest}
    {d : Option Str}
    (hw : ¬ want ≤ collected.length) (hg : gen attempt = .httpError d) :
    attemptLoop t qs bucket gen topicSlice want (fuel + 1) attempt collected calls =
      (.error (.backend (d.getD defaultGenFailMsg)),
        calls ++ [⟨want - collected.length,
          (qs.filter (fun q => decide (q.type = t))).map (·.question) ++
            collected.map (·.question),
          if topicSlice.isEmpty then none else some topicSlice⟩]) := by
  rw [attemptLoop, if_neg hw, hg]

lemma attemptLoop_step_crash (t : QType) (qs : List QuizItem) (bucket : List Str)
    (gen : Nat → GenResponse) (topicSlice : List Str) (want : Nat)
    {fuel attempt : Nat} {collected : List QuizItem} {calls : List GenRequest}
    {payload : List RawItem} {e : JsErr}
    (hw : ¬ want ≤ collected.length) (hg : gen attempt = .ok payload)
    (hn : normalizeFromAPI payload = .error e) :
    attemptLoop t qs bucket gen topicSlice want (fuel + 1) attempt collected calls =
      (.error .crash,
        calls ++ [⟨want - collected.length,
          (qs.filter (fun q => decide (q.type = t))).map (·.question) ++
            collected.map (·.question),
          if topicSlice.isEmpty then none else some topicSlice⟩]) := by
  rw [attemptLoop, if_neg hw, hg]
  simp only [hn]

lemma attemptLoop_step_ok (t : QType) (qs : List QuizItem) (bucket : List Str)
    (gen : Nat → GenResponse) (topicSlice : List Str) (want : Nat)
    {fuel attempt : Nat} {collected : List QuizItem} {calls : List GenRequest}
    {payload : List RawItem} {items : List QuizItem}
    (hw : ¬ want ≤ collected.length) (hg : gen attempt = .ok payload)
    (hn : normalizeFromAPI payload = .ok items) :
    attemptLoop t qs bucket gen topicSlice want (fuel + 1) attempt collected calls =
      attemptLoop t qs bucket gen topicSlice want fuel (attempt + 1)
        (collected ++ dedupFilter (items.filter (fun q => decide (q.type = t))) bucket
          (qs.filter (fun q => decide (q.type = t))) collected)
        (calls ++ [⟨want - collected.length,
          (qs.filter (fun q => decide (q.type = t))).map (·.question) ++
            collected.map (·.question),
          if topicSlice.isEmpty then none else some topicSlice⟩]) := by
  rw [attemptLoop, if_neg hw, hg]
  simp only [hn]

lemma attemptLoop_calls_extend (t : QType) (qs : List QuizItem) (bucket : List Str)
    (gen : Nat → GenResponse) (topicSlice : List Str) (want : Nat) :
    ∀ (fuel attempt : Nat) (collected : List QuizItem) (calls : List GenRequest),
      ∃ more, (attemptLoop t qs bucket gen topicSlice want fuel attempt collected calls).2 =
        calls ++ more := by
  intro fuel
  induction fuel with
  | zero =>
    intro attempt collected calls
    exact ⟨[], by simp [attemptLoop_zero]⟩
  | succ n ih =>
    intro attempt collected calls
    by_cases hw : want ≤ collected.length
    · rw [attemptLoop_step_done t qs bucket gen topicSlice want hw]
      exact ⟨[], by simp⟩
    · cases hg : gen attempt with
      | httpError d =>
        rw [attemptLoop_step_http t qs bucket gen topicSlice want hw hg]
        exact ⟨_, rfl⟩
      | ok payload =>
        cases hn : normalizeFromAPI payload with
        | error e =>
          rw [attemptLoop_step_crash t qs bucket gen topicSlice want hw hg hn]
          exact ⟨_, rfl⟩
        | ok items =>
          rw [attemptLoop_step_ok t qs bucket gen topicSlice want hw hg hn]
          obtain ⟨more, hmore⟩ := ih (attempt + 1) _ _
          exact ⟨_, by rw [hmore, List.append_assoc]⟩

lemma attemptLoop_calls_topics (t : QType) (qs : List QuizItem) (bucket : List Str)
    (gen : Nat → GenResponse) (topicSlice : List Str) (want : Nat) :
    ∀ (fuel attempt : Nat) (collected : List QuizItem) (calls : List GenRequest),
      ∀ req ∈ (attemptLoop t qs bucket gen topicSlice want fuel attempt collected calls).2,
        req ∈ calls ∨ req.topics = (if topicSlice.isEmpty then none else some topicSlice) := by
  intro fuel
  induction fuel with
  | zero =>
    intro attempt collected calls req hreq
    exact Or.inl (by simpa [attemptLoop_zero] using hreq)
  | succ n ih =>
    intro attempt collected calls req hreq
    by_cases hw : want ≤ collected.length
    · rw [attemptLoop_step_done t qs bucket gen topicSlice want hw] at hreq
      exact Or.inl (by simpa using hreq)
    · cases hg : gen attempt with
      | httpError d =>
        rw [attemptLoop_step_http t qs bucket gen topicSlice want hw hg] at hreq
        simp only [List.mem_append, List.mem_singleton] at hreq
        rcases hreq with h | h
        · exact Or.inl h
        · subst h
          by_cases hts : topicSlice.isEmpty <;> simp [hts]
      | ok payload =>
        cases hn : normalizeFromAPI payload with
        | error e =>
          rw [attemptLoop_step_crash t qs bucket gen topicSlice want hw hg hn] at hreq
          simp only [List.mem_append, List.mem_singleton] at hreq
          rcases hreq with h | h
          · exact Or.inl h
          · subst h
            by_cases hts : topicSlice.isEmpty <;> simp [hts]
        | ok items =>
          rw [attemptLoop_step_ok t qs bucket gen topicSlice want hw hg hn] at hreq
          rcases ih _ _ _ req hreq with h | h
          · rcases List.mem_append.1 h with h' | h'
            · exact Or.inl h'
            · rw [List.mem_singleton] at h'
              subst h'
              by_cases hts : topicSlice.isEmpty <;> simp [hts]
          · exact Or.inr h

end Edu

namespace Edu

/-! ### True/false answer resolution -/

lemma tfResolve_true_or_false (a : Str) :
    tfResolve a = "true".toList ∨ tfResolve a = "false".toList := by
  unfold tfResolve
  by_cases h1 : a = "true".toList ∨ a = "false".toList
  · rw [if_pos h1]; exact h1
  · rw [if_neg h1]
    by_cases h2 : a ∈ trueSynonyms
    · rw [if_pos (by simpa using h2)]; exact Or.inl rfl
    · rw [if_neg (by simpa using h2)]
      by_cases h3 : a ∈ falseSynonyms
      · rw [if_pos (by simpa using h3)]; exact Or.inr rfl
      · rw [if_neg (by simpa using h3)]; exact Or.inr rfl

lemma tfResolve_default {a : Str} (h1 : a ∉ trueSynonyms) (h2 : a ∉ falseSynonyms)
    (h3 : a ≠ "true".toList) : tfResolve a = "false".toList := by
  unfold tfResolve
  by_cases h : a = "true".toList ∨ a = "false".toList
  · rcases h with h | h
    · exact absurd h h3
    · rw [if_pos (Or.inr h)]; exact h
  · rw [if_neg h, if_neg (by simpa using h1), if_neg (by simpa using h2)]

/-- C9: a raw record whose kind is non-empty but not the multiple-choice kind
(after trimming and lower-casing) and whose question text is non-empty is
never rejected: it canonicalizes to a true-false item whose answer is
resolved through the synonym sets, defaulting to the false token when
unrecognized. -/
theorem C9_unrecognized_kind_tf (r : RawItem)
    (hty : jsLower (toStrOpt r.type) ≠ [])
    (hmcq : jsLower (toStrOpt r.type) ≠ "mcq".toList)
    (hq : toStrOpt r.question ≠ []) :
    normalizeOne r = .ok (some ⟨.tf, toStrOpt r.question, none,
      tfResolve (jsLower (toStrOpt r.answer)), r.explain.map jsTrim⟩) ∧
    (tfResolve (jsLower (toStrOpt r.answer)) = "true".toList ∨
     tfResolve (jsLower (toStrOpt r.answer)) = "false".toList) ∧
    ((jsLower (toStrOpt r.answer) ∉ trueSynonyms ∧
      jsLower (toStrOpt r.answer) ∉ falseSynonyms ∧
      jsLower (toStrOpt r.answer) ≠ "true".toList) →
      tfResolve (jsLower (toStrOpt r.answer)) = "false".toList) := by
  refine ⟨?_, tfResolve_true_or_false _, fun h => tfResolve_default h.1 h.2.1 h.2.2⟩
  unfold normalizeOne
  rw [if_neg (by simp [List.isEmpty_iff, hty, hq]), if_neg hmcq]

/-- C9 witness: an `"essay"` record with an unrecognized answer token. -/
theorem C9_witness :
    jsLower (toStrOpt (some "essay".toList)) ≠ [] ∧
    normalizeOne ⟨some "essay".toList, some "Q1".toList, none,
        some "maybe".toList, none⟩ =
      .ok (some ⟨.tf, toStrOpt (some "Q1".toList), none,
        tfResolve (jsLower (toStrOpt (some "maybe".toList))), none⟩) ∧
    tfResolve (jsLower (toStrOpt (some "maybe".toList))) = "false".toList := by
  refine ⟨by decide, ?_, ?_⟩
  · exact (C9_unrecognized_kind_tf ⟨some "essay".toList, some "Q1".toList, none,
      some "maybe".toList, none⟩ (by decide) (by decide) (by decide)).1
  · exact (C9_unrecognized_kind_tf ⟨some "essay".toList, some "Q1".toList, none,
      some "maybe".toList, none⟩ (by decide) (by decide) (by decide)).2.2
      ⟨by decide, by decide, by decide⟩

/-- C6: `similarity` is symmetric, and both component measures (Jaccard and
Dice-bigram, whose multiset intersection consumes each bigram instance at
most once) and their maximum lie in `[0, 1]`. -/
theorem C6_similarity_symmetric_bounded (a b : Str) :
    similar a b = similar b a ∧
    jaccard a b = jaccard b a ∧
    diceBigram a b = diceBigram b a ∧
    0 ≤ jaccard a b ∧ jaccard a b ≤ 1 ∧
    0 ≤ diceBigram a b ∧ diceBigram a b ≤ 1 ∧
    0 ≤ similar a b ∧ similar a b ≤ 1 :=
  ⟨similar_comm a b, jaccard_comm a b, diceBigram_comm a b, jaccard_nonneg a b,
   jaccard_le_one a b, diceBigram_nonneg a b, diceBigram_le_one a b,
   similar_nonneg a b, similar_le_one a b⟩

/-- C5 (amended): `similarity(s, s) = 1` holds for every string that yields
at least one token after stop-word filtering or at least one character bigram
after whitespace collapsing; for other non-empty strings (for example a lone
punctuation character) the self-similarity is 0, not 1. -/
theorem C5_similar_self (s : Str) (h : tokenize s ≠ [] ∨ bigrams s ≠ []) :
    similar s s = 1 :=
  similar_self_of_nonempty h

/-- C5 witness: a concrete string satisfying the hypothesis. -/
theorem C5_witness :
    (tokenize "hello world".toList ≠ [] ∨ bigrams "hello world".toList ≠ []) ∧
    similar "hello world".toList "hello world".toList = 1 :=
  ⟨Or.inl (by decide), C5_similar_self "hello world".toList (Or.inl (by decide))⟩

/-- C5 counterexample: `"!"` is non-empty yet its self-similarity is 0. -/
theorem C5_counterexample :
    "!".toList ≠ [] ∧ similar "!".toList "!".toList ≠ 1 := by
  constructor
  · decide
  · have h1 : jaccard "!".toList "!".toList = 0 := by
      unfold jaccard
      rw [if_pos (by decide)]
    have h2 : diceBigram "!".toList "!".toList = 0 := by
      unfold diceBigram
      rw [if_pos (by decide)]
    rw [similar, h1, h2]
    norm_num

/-- C4 (amended): the Key Generator is invariant under punctuation-only
differences between whitespace-free question strings: if neither string
contains whitespace and their letter-and-digit content agrees in order, the
keys are equal.  (When whitespace is present, deleting punctuation can leave
behind differing space runs — see the counterexample — so the claim as
stated fails.) -/
theorem C4_key_punctuation_invariant (a b : Str)
    (ha : ∀ c ∈ a, isWs c = false) (hb : ∀ c ∈ b, isWs c = false)
    (hcontent : a.filter isWordChar = b.filter isWordChar) :
    keyOfText a = keyOfText b := by
  rw [keyOfText_of_no_ws ha, keyOfText_of_no_ws hb, hcontent]

/-- C4 witness: `"a,b"` and `"ab"` differ only by punctuation and receive the
same key. -/
theorem C4_witness :
    ("a,b".toList.filter isWordChar = "ab".toList.filter isWordChar) ∧
    keyOfText "a,b".toList = keyOfText "ab".toList :=
  ⟨by decide, C4_key_punctuation_invariant "a,b".toList "ab".toList
    (by decide) (by decide) (by decide)⟩

/-- C4 counterexample: `"a , b"` and `"a b"` differ only in one punctuation
character (their letter-and-digit content in order is identical), yet their
keys differ: stripping the comma after whitespace collapsing leaves a double
space in the key. -/
theorem C4_counterexample :
    ("a , b".toList.filter isWordChar = "a b".toList.filter isWordChar) ∧
    keyOfText "a , b".toList ≠ keyOfText "a b".toList := by
  exact ⟨by decide, by decide⟩

end Edu

namespace Edu

/-! ### Deduplicator claim -/

lemma simAB : NEAR_DUP_TH ≤ similar qA.question qB.question := by
  have hj : jaccard qA.question qB.question = 4 / 5 := by
    simp only [jaccard]
    rw [if_neg (by decide)]
    rw [show ((tokenize qA.question).dedup.filter
        (fun w => decide (w ∈ (tokenize qB.question).dedup))).length = 4 from by decide]
    rw [show (tokenize qA.question).dedup.length = 4 from by decide]
    rw [show (tokenize qB.question).dedup.length = 5 from by decide]
    norm_num
  calc NEAR_DUP_TH ≤ 4 / 5 := by norm_num [NEAR_DUP_TH]
    _ = jaccard qA.question qB.question := hj.symm
    _ ≤ similar qA.question qB.question := le_max_left _ _

/-- C1 (amended): the Batch Deduplicator's output is exactly the subsequence
of input items that are neither an exact key match against the seen-key set
nor a near-duplicate of any accepted or already-collected question; in
particular, when A is among the accepted (or already-collected) items, every
near-duplicate B of A is excluded even when key(B) differs from key(A).  (As
stated — with key(A) merely present in the seen-key set but A not among the
accepted items — exclusion fails; see the counterexample.) -/
theorem C1_dedup_exact_subsequence (incoming : List QuizItem) (bucket : List Str)
    (accepted collected : List QuizItem) :
    dedupFilter incoming bucket accepted collected =
      dedupSpec incoming bucket accepted collected ∧
    (dedupFilter incoming bucket accepted collected).Sublist incoming ∧
    (∀ A B, (A ∈ accepted ∨ A ∈ collected) → B ∈ incoming →
      NEAR_DUP_TH ≤ similar A.question B.question →
      B ∉ dedupFilter incoming bucket accepted collected) :=
  ⟨dedupFilter_eq_spec incoming bucket accepted collected,
   List.filter_sublist _,
   fun _ _ hA _ hsim => dedupFilter_not_mem_of_nearDup hA hsim⟩

/-- C1 witness: with `qA` accepted (its key registered) and `qB` an incoming
near-duplicate with a different key, `qB` is excluded. -/
theorem C1_witness :
    (qA ∈ [qA] ∨ qA ∈ ([] : List QuizItem)) ∧
    NEAR_DUP_TH ≤ similar qA.question qB.question ∧
    qB ∉ dedupFilter [qB] [keyFor qA] [qA] [] :=
  ⟨Or.inl (by decide), simAB,
   (C1_dedup_exact_subsequence [qB] [keyFor qA] [qA] []).2.2 qA qB
     (Or.inl (by decide)) (by decide) simAB⟩

/-- C1 counterexample: a seen-key set containing key(qA) alone does not
exclude the near-duplicate `qB` when `qA` itself is not among the accepted or
collected items — `qB` survives the filter even though
`similarity(qA, qB) ≥ 0.78` and the keys differ. -/
theorem C1_counterexample :
    NEAR_DUP_TH ≤ similar qA.question qB.question ∧
    keyFor qB ≠ keyFor qA ∧
    dedupFilter [qB] [keyFor qA] [] [] = [qB] :=
  ⟨simAB, by decide, by decide⟩

/-! ### Shuffler/Remapper claim -/

lemma swap01_perm (l : List Str) : (swap01 l).Perm l := by
  match l with
  | [] => exact List.Perm.refl _
  | [a] => exact List.Perm.refl _
  | a :: b :: r => exact List.Perm.swap a b r

/-- C2 (amended): for every multiple-choice item with exactly 4 choices, a
valid correctAnswer marker and a non-empty correct choice text, after
`shuffleAndRemapBatch` (with any permutations the shuffler can produce) the
choice text at the new correctAnswer position equals the text that was at the
old correctAnswer position.  (When the correct choice text is the empty
string the remap is skipped — see the counterexample — so the claim as
stated, over all items, fails.) -/
theorem C2_shuffle_remap (pb : List QuizItem → List QuizItem)
    (pc : Nat → List Str → List Str) (hpc : ∀ i l, (pc i l).Perm l)
    (qs : List QuizItem) (i : Nat) (q : QuizItem) (cs : List Str)
    (hq : (pb qs).get? i = some q)
    (hty : q.type = .mcq) (hcs : q.choices = some cs) (hlen : cs.length = 4)
    {k : Nat} (hk : letterToIdx q.answer = some k) (hne : cs.get? k ≠ some []) :
    ∃ (j : Nat) (t : Str),
      (shuffleAndRemapBatch pb pc qs).get? i = some (shuffleRemapOne (pc i) q) ∧
      (shuffleRemapOne (pc i) q).choices = some (pc i cs) ∧
      letterToIdx (shuffleRemapOne (pc i) q).answer = some j ∧
      (pc i cs).get? j = some t ∧ cs.get? k = some t := by
  obtain ⟨j, t, h1, h2, h3, h4⟩ :=
    shuffleRemapOne_remap (pc i) q cs hty hcs hlen hk (hpc i cs) hne
  refine ⟨j, t, ?_, h1, h2, h3, h4⟩
  rw [shuffleAndRemapBatch, List.get?_eq_getElem?, List.getElem?_mapIdx,
    ← List.get?_eq_getElem?, hq]
  rfl

/-- C2 witness: a concrete item (answer marker `ข`), shuffled by swapping the
first two choices. -/
theorem C2_witness :
    (itemB.choices = some ["w".toList, "x".toList, "y".toList, "z".toList]) ∧
    ∃ (j : Nat) (t : Str),
      (shuffleAndRemapBatch id (fun _ => swap01) [itemB]).get? 0 =
        some (shuffleRemapOne (swap01) itemB) ∧
      (shuffleRemapOne (swap01) itemB).choices =
        some (swap01 ["w".toList, "x".toList, "y".toList, "z".toList]) ∧
      letterToIdx (shuffleRemapOne (swap01) itemB).answer = some j ∧
      (swap01 ["w".toList, "x".toList, "y".toList, "z".toList]).get? j = some t ∧
      ["w".toList, "x".toList, "y".toList, "z".toList].get? (1 : Nat) = some t :=
  ⟨by decide,
   C2_shuffle_remap id (fun _ => swap01) (fun _ l => swap01_perm l) [itemB] 0 itemB
     ["w".toList, "x".toList, "y".toList, "z".toList]
     (by decide) (by decide) (by decide) (by decide) (by decide) (by decide)⟩

/-- C2 counterexample: when the correct choice text is the empty string the
remap is skipped (`correctText` is falsy): after swapping the first two
choices, the text at the (unchanged) correctAnswer position is `"b"`, not the
original empty text. -/
theorem C2_counterexample :
    (swap01 [[], "b".toList, "c".toList, "d".toList]).Perm
      [[], "b".toList, "c".toList, "d".toList] ∧
    shuffleAndRemapBatch id (fun _ => swap01) [itemEmptyChoice] =
      [⟨.mcq, "p".toList, some ["b".toList, [], "c".toList, "d".toList],
        "ก".toList, none⟩] ∧
    letterToIdx "ก".toList = some 0 ∧
    ["b".toList, [], "c".toList, "d".toList].get? 0 ≠
      [[], "b".toList, "c".toList, "d".toList].get? 0 := by
  refine ⟨?_, by decide, by decide, by decide⟩
  exact List.Perm.swap [] "b".toList ["c".toList, "d".toList]

end Edu

namespace Edu

/-! ### Batch collector claims -/

lemma addMoreQuiz_eq (context : Str) (t : QType) (questions : List QuizItem)
    (bucket : List Str) (topics : List Str) (gen : Nat → GenResponse)
    (pb : List QuizItem → List QuizItem) (pc : Nat → List Str → List Str)
    (hctx : context ≠ []) (hroom : countByType questions t < MAX_QUESTIONS) :
    addMoreQuiz context t questions bucket topics gen pb pc =
      (match attemptLoop t questions bucket gen
          (topics.take (wantFor questions t)) (wantFor questions t)
          (1 + MAX_RETRY) 0 [] [] with
       | (.error (.backend m), calls) =>
         ⟨.backendError m, questions, bucket,
          topics.drop (wantFor questions t), calls⟩
       | (.error .crash, calls) =>
         ⟨.typeErrorCrash, questions, bucket,
          topics.drop (wantFor questions t), calls⟩
       | (.ok collected, calls) =>
         if collected.isEmpty then
           ⟨.noNewItems, questions, bucket,
            topics.drop (wantFor questions t), calls⟩
         else
           ⟨.success (shuffleAndRemapBatch pb pc
              (collected.take (wantFor questions t))),
            questions ++ shuffleAndRemapBatch pb pc
              (collected.take (wantFor questions t)),
            bucket ++ (shuffleAndRemapBatch pb pc
              (collected.take (wantFor questions t))).map keyFor,
            topics.drop (wantFor questions t), calls⟩) := by
  unfold addMoreQuiz
  rw [if_neg (by simpa [List.isEmpty_iff] using hctx)]
  rw [if_neg (by
    simp only [not_le]
    have := hroom
    unfold MAX_QUESTIONS at this ⊢
    omega)]
  have htn : ((MAX_QUESTIONS : Int) - (countByType questions t : Int)).toNat =
      MAX_QUESTIONS - countByType questions t := by omega
  rw [htn]
  rfl

lemma shuffleAndRemapBatch_length (pb : List QuizItem → List QuizItem)
    (pc : Nat → List Str → List Str) (hpb : ∀ l, (pb l).Perm l)
    (l : List QuizItem) : (shuffleAndRemapBatch pb pc l).length = l.length := by
  rw [shuffleAndRemapBatch, List.length_mapIdx, (hpb l).length_eq]

/-- C10: with a non-empty context and room below the quota, `want` topic
strings are removed from the front of the topic queue (at most its length),
the queue stays shortened in the final state whatever the outcome, and every
generation request carries exactly the removed slice as its topic hints. -/
theorem C10_topic_queue_consumed (context : Str) (t : QType)
    (questions : List QuizItem) (bucket : List Str) (topics : List Str)
    (gen : Nat → GenResponse) (pb : List QuizItem → List QuizItem)
    (pc : Nat → List Str → List Str)
    (hctx : context ≠ []) (hroom : countByType questions t < MAX_QUESTIONS) :
    (addMoreQuiz context t questions bucket topics gen pb pc).topics =
      topics.drop (wantFor questions t) ∧
    (addMoreQuiz context t questions bucket topics gen pb pc).topics.length =
      topics.length - min (wantFor questions t) topics.length ∧
    (∀ req ∈ (addMoreQuiz context t questions bucket topics gen pb pc).calls,
      req.topics = (if (topics.take (wantFor questions t)).isEmpty then none
        else some (topics.take (wantFor questions t)))) := by
  have hdrop : (addMoreQuiz context t questions bucket topics gen pb pc).topics =
      topics.drop (wantFor questions t) := by
    rw [addMoreQuiz_eq context t questions bucket topics gen pb pc hctx hroom]
    rcases hres : attemptLoop t questions bucket gen
        (topics.take (wantFor questions t)) (wantFor questions t)
        (1 + MAX_RETRY) 0 [] [] with ⟨res, calls⟩
    match res with
    | .error (.backend m) => rfl
    | .error .crash => rfl
    | .ok collected =>
      by_cases hc : collected.isEmpty
      · simp only [if_pos hc]
      · simp only [if_neg hc]
  refine ⟨hdrop, ?_, ?_⟩
  · rw [hdrop, List.length_drop]
    omega
  · intro req hreq
    have hcalls : (addMoreQuiz context t questions bucket topics gen pb pc).calls =
        (attemptLoop t questions bucket gen
          (topics.take (wantFor questions t)) (wantFor questions t)
          (1 + MAX_RETRY) 0 [] []).2 := by
      rw [addMoreQuiz_eq context t questions bucket topics gen pb pc hctx hroom]
      rcases hres : attemptLoop t questions bucket gen
          (topics.take (wantFor questions t)) (wantFor questions t)
          (1 + MAX_RETRY) 0 [] [] with ⟨res, calls⟩
      match res with
      | .error (.backend m) => rfl
      | .error .crash => rfl
      | .ok collected =>
        by_cases hc : collected.isEmpty
        · simp only [if_pos hc]
        · simp only [if_neg hc]
    rw [hcalls] at hreq
    rcases attemptLoop_calls_topics t questions bucket gen
      (topics.take (wantFor questions t)) (wantFor questions t)
      (1 + MAX_RETRY) 0 [] [] req hreq with h | h
    · exact absurd h (List.not_mem_nil req)
    · exact h

/-- C10 witness: a six-topic queue with room below the quota; five topics are
consumed and the queue stays shortened. -/
theorem C10_witness :
    ("c".toList ≠ []) ∧ countByType [] QType.mcq < MAX_QUESTIONS ∧
    (addMoreQuiz "c".toList QType.mcq [] [] (["t1".toList, "t2".toList,
        "t3".toList, "t4".toList, "t5".toList, "t6".toList]) genOnce id
      (fun _ => id)).topics =
      (["t1".toList, "t2".toList, "t3".toList, "t4".toList, "t5".toList,
        "t6".toList]).drop (wantFor [] QType.mcq) :=
  ⟨by decide, by decide,
   (C10_topic_queue_consumed "c".toList QType.mcq [] []
     (["t1".toList, "t2".toList, "t3".toList, "t4".toList, "t5".toList,
       "t6".toList]) genOnce id (fun _ => id) (by decide) (by decide)).1⟩

lemma addMoreQuiz_calls_eq (context : Str) (t : QType) (questions : List QuizItem)
    (bucket : List Str) (topics : List Str) (gen : Nat → GenResponse)
    (pb : List QuizItem → List QuizItem) (pc : Nat → List Str → List Str)
    (hctx : context ≠ []) (hroom : countByType questions t < MAX_QUESTIONS) :
    (addMoreQuiz context t questions bucket topics gen pb pc).calls =
      (attemptLoop t questions bucket gen (topics.take (wantFor questions t))
        (wantFor questions t) (1 + MAX_RETRY) 0 [] []).2 := by
  rw [addMoreQuiz_eq context t questions bucket topics gen pb pc hctx hroom]
  rcases hres : attemptLoop t questions bucket gen
      (topics.take (wantFor questions t)) (wantFor questions t)
      (1 + MAX_RETRY) 0 [] [] with ⟨res, calls⟩
  match res with
  | .error (.backend m) => rfl
  | .error .crash => rfl
  | .ok collected =>
    by_cases hc : collected.isEmpty
    · simp only [if_pos hc]
    · simp only [if_neg hc]

lemma attemptLoop_first_call (t : QType) (qs : List QuizItem) (bucket : List Str)
    (gen : Nat → GenResponse) (topicSlice : List Str) (want : Nat) (fuel : Nat)
    (hw : 0 < want) :
    ∃ rest, (attemptLoop t qs bucket gen topicSlice want (fuel + 1) 0 [] []).2 =
      (⟨want, (qs.filter (fun q => decide (q.type = t))).map (·.question),
        if topicSlice.isEmpty then none else some topicSlice⟩ : GenRequest) :: rest := by
  have hw' : ¬ want ≤ ([] : List QuizItem).length := by simpa using hw.ne.symm
  have hreq : (⟨want - ([] : List QuizItem).length,
      (qs.filter (fun q => decide (q.type = t))).map (·.question) ++
        ([] : List QuizItem).map (·.question),
      if topicSlice.isEmpty then none else some topicSlice⟩ : GenRequest) =
      ⟨want, (qs.filter (fun q => decide (q.type = t))).map (·.question),
        if topicSlice.isEmpty then none else some topicSlice⟩ := by
    simp
  cases hg : gen 0 with
  | httpError d =>
    rw [attemptLoop_step_http t qs bucket gen topicSlice want hw' hg]
    exact ⟨[], by rw [List.nil_append, hreq]⟩
  | ok payload =>
    cases hn : normalizeFromAPI payload with
    | error e =>
      rw [attemptLoop_step_crash t qs bucket gen topicSlice want hw' hg hn]
      exact ⟨[], by rw [List.nil_append, hreq]⟩
    | ok items =>
      rw [attemptLoop_step_ok t qs bucket gen topicSlice want hw' hg hn]
      obtain ⟨more, hmore⟩ := attemptLoop_calls_extend t qs bucket gen topicSlice want
        fuel 1 _ _
      refine ⟨more, ?_⟩
      rw [hmore, hreq]
      simp

/-- C8 (amended): the Batch Collector computes `want = min(batchSize,
quota − alreadyHave)` and requests exactly `want` items on its first attempt;
when the quota is already met it returns immediately with nothing changed and
no request issued; and on success the returned batch is the collected list
truncated to `want` — exactly `want` items when at least `want` were
collected, but possibly fewer when the attempts undersupplied (so "success
implies exactly want items", as stated, fails — see the counterexample). -/
theorem C8_batch_collector_want (context : Str) (t : QType)
    (questions : List QuizItem) (bucket : List Str) (topics : List Str)
    (gen : Nat → GenResponse) (pb : List QuizItem → List QuizItem)
    (pc : Nat → List Str → List Str)
    (hpb : ∀ l, (pb l).Perm l) (hctx : context ≠ []) :
    ((MAX_QUESTIONS ≤ countByType questions t) →
      addMoreQuiz context t questions bucket topics gen pb pc =
        ⟨.quotaMet, questions, bucket, topics, []⟩) ∧
    ((countByType questions t < MAX_QUESTIONS) →
      ∃ rest, (addMoreQuiz context t questions bucket topics gen pb pc).calls =
        (⟨wantFor questions t,
          (questions.filter (fun q => decide (q.type = t))).map (·.question),
          if (topics.take (wantFor questions t)).isEmpty then none
          else some (topics.take (wantFor questions t))⟩ : GenRequest) :: rest) ∧
    ((countByType questions t < MAX_QUESTIONS) →
      ∀ collected calls,
        attemptLoop t questions bucket gen (topics.take (wantFor questions t))
          (wantFor questions t) (1 + MAX_RETRY) 0 [] [] = (.ok collected, calls) →
        collected ≠ [] →
        (addMoreQuiz context t questions bucket topics gen pb pc).outcome =
          .success (shuffleAndRemapBatch pb pc
            (collected.take (wantFor questions t))) ∧
        (shuffleAndRemapBatch pb pc (collected.take (wantFor questions t))).length =
          min (wantFor questions t) collected.length) := by
  refine ⟨?_, ?_, ?_⟩
  · intro hfull
    unfold addMoreQuiz
    rw [if_neg (by simpa [List.isEmpty_iff] using hctx)]
    rw [if_pos (by omega)]
  · intro hroom
    rw [addMoreQuiz_calls_eq context t questions bucket topics gen pb pc hctx hroom]
    have hw : 0 < wantFor questions t := by
      show 0 < min BATCH_SIZE (MAX_QUESTIONS - countByType questions t)
      have h15 : MAX_QUESTIONS = 15 := rfl
      have h5 : BATCH_SIZE = 5 := rfl
      rw [h15, h5]
      rw [h15] at hroom
      omega
    exact attemptLoop_first_call t questions bucket gen
      (topics.take (wantFor questions t)) (wantFor questions t) (MAX_RETRY) hw
  · intro hroom collected calls hloop hne
    simp only [addMoreQuiz_eq context t questions bucket topics gen pb pc hctx hroom,
      hloop, if_neg (show ¬ collected.isEmpty = true by simpa [List.isEmpty_iff] using hne)]
    refine ⟨by trivial, ?_⟩
    rw [shuffleAndRemapBatch_length pb pc hpb, List.length_take]

/-- C8 witness: quota 15, batch size 5, 13 items already accepted — the first
request asks for exactly `want = 2`. -/
theorem C8_witness :
    countByType (List.replicate 13 itemA) QType.mcq = 13 ∧
    wantFor (List.replicate 13 itemA) QType.mcq = 2 ∧
    (∃ rest, (addMoreQuiz "c".toList QType.mcq (List.replicate 13 itemA) [] []
        genOnce id (fun _ => id)).calls =
      (⟨wantFor (List.replicate 13 itemA) QType.mcq,
        ((List.replicate 13 itemA).filter
          (fun q => decide (q.type = QType.mcq))).map (·.question),
        if (([] : List Str).take
            (wantFor (List.replicate 13 itemA) QType.mcq)).isEmpty then none
        else some (([] : List Str).take
          (wantFor (List.replicate 13 itemA) QType.mcq))⟩ : GenRequest) :: rest) :=
  ⟨by decide, by decide,
   (C8_batch_collector_want "c".toList QType.mcq (List.replicate 13 itemA) [] []
     genOnce id (fun _ => id) (fun l => List.Perm.refl l) (by decide)).2.1
     (by decide)⟩

/-- C8 counterexample: with `want = 5` and a collaborator that yields one
fresh item then nothing, the operation succeeds with a single item — fewer
than `want`. -/
theorem C8_counterexample :
    (addMoreQuiz "ctx".toList QType.mcq [] [] [] genOnce id
      (fun _ => id)).outcome = .success [itemA] ∧
    wantFor [] QType.mcq = 5 ∧
    ([itemA].length ≠ wantFor [] QType.mcq) := by
  refine ⟨by decide, by decide, by decide⟩

end Edu

namespace Edu

/-! ### Canonicalizer crash claim -/

lemma jsNumber_one_point_five : jsNumber "1.5".toList = some (3 / 2) := by
  simp [jsNumber, jsTrim, isWs, splitDot, splitDotAux, digitsVal]
  norm_num

lemma resolveMcqAnswer_crash :
    resolveMcqAnswer ["w".toList, "x".toList, "y".toList, "z".toList]
      "1.5".toList = .error .typeErr := by
  rw [resolveMcqAnswer]
  rw [if_neg (by decide)]
  simp only [jsNumber_one_point_five]
  rw [if_pos (show (1 : ℚ) ≤ 3 / 2 ∧ (3 : ℚ) / 2 ≤ 4 by norm_num)]
  rw [if_pos (show (0 : ℚ) ≤ 3 / 2 - 1 ∧ (3 : ℚ) / 2 - 1 < 4 by norm_num)]
  rw [jsIndexStr]
  rw [if_neg (show ¬ (((3 : ℚ) / 2 - 1).den = 1 ∧ 0 ≤ ((3 : ℚ) / 2 - 1).num) by norm_num)]

lemma normalizeOne_rawBad : normalizeOne rawBad = .error .typeErr := by
  unfold normalizeOne
  rw [if_neg (by decide), if_pos (by decide)]
  rw [show mcqChoices (rawBad.choices.getD []) =
    ["w".toList, "x".toList, "y".toList, "z".toList] from by decide]
  rw [show jsLower (toStrOpt rawBad.answer) = "1.5".toList from by decide]
  simp only [resolveMcqAnswer_crash]

/-- C7 (code bug): batch canonicalization is not total — a single mcq record
whose `correctAnswer` is the fractional numeric string `"1.5"` makes the
answer-resolution chain index `idxToLetter` at a fractional position
(yielding `undefined`) and then call `.replace` on it, throwing a `TypeError`
that aborts the whole batch, dropping the well-formed record `rawA` too; the
same well-formed record alone canonicalizes fine. -/
theorem C7_fractional_answer_crashes_batch :
    normalizeFromAPI [rawA, rawBad] = .error .typeErr ∧
    normalizeFromAPI [rawA] = .ok [itemA] := by
  constructor
  · have h1 : normalizeOne rawA = .ok (some itemA) := by decide
    simp only [normalizeFromAPI, h1, normalizeOne_rawBad]
  · decide

/-! ### No-new-items claim -/

/-- C3 (amended): if the collaborator returns the same single record on every
attempt with `want = 5` (quota shortfall at least the batch size), and that
record's canonical item is a duplicate of the session — an exact key match
against the seen-key set or a near-duplicate of an already-accepted same-kind
question — then the collection fails with the distinct no-new-items condition
and leaves the accepted list and the seen-key set unchanged.  (Without the
duplicate hypothesis the operation instead succeeds with the one fresh item —
see the counterexample.) -/
theorem C3_no_new_items_when_duplicate (context : Str) (t : QType)
    (questions : List QuizItem) (bucket : List Str) (topics : List Str)
    (gen : Nat → GenResponse) (pb : List QuizItem → List QuizItem)
    (pc : Nat → List Str → List Str) (rA : RawItem) (A : QuizItem)
    (hctx : context ≠ [])
    (hsmall : countByType questions t ≤ MAX_QUESTIONS - BATCH_SIZE)
    (hgen : ∀ a, gen a = .ok [rA])
    (hnorm : normalizeFromAPI [rA] = .ok [A])
    (hA : A.type = t)
    (hdup : keyFor A ∈ bucket ∨
      ∃ e ∈ questions, e.type = t ∧ NEAR_DUP_TH ≤ similar A.question e.question) :
    wantFor questions t = BATCH_SIZE ∧
    (addMoreQuiz context t questions bucket topics gen pb pc).outcome =
      .noNewItems ∧
    (addMoreQuiz context t questions bucket topics gen pb pc).questions =
      questions ∧
    (addMoreQuiz context t questions bucket topics gen pb pc).bucket = bucket := by
  have h15 : MAX_QUESTIONS = 15 := rfl
  have h5 : BATCH_SIZE = 5 := rfl
  rw [h15, h5] at hsmall
  have hroom : countByType questions t < MAX_QUESTIONS := by
    rw [h15]
    omega
  have hwant : wantFor questions t = BATCH_SIZE := by
    show min BATCH_SIZE (MAX_QUESTIONS - countByType questions t) = BATCH_SIZE
    rw [h15, h5]
    rw [Nat.min_eq_left (by omega)]
  have hw0 : 0 < wantFor questions t := by
    rw [hwant, h5]
    omega
  have hfA : [A].filter (fun q => decide (q.type = t)) = [A] := by simp [hA]
  have hded : dedupFilter [A] bucket
      (questions.filter (fun q => decide (q.type = t))) [] = [] := by
    apply dedupFilter_eq_nil
    intro q hq
    rw [List.mem_singleton] at hq
    subst hq
    rcases hdup with h | ⟨e, he, het, hsim⟩
    · exact Or.inl h
    · exact Or.inr ⟨e, List.mem_filter.2 ⟨he, by simp [het]⟩, hsim⟩
  have hstep : ∀ fuel attempt calls,
      attemptLoop t questions bucket gen (topics.take (wantFor questions t))
        (wantFor questions t) (fuel + 1) attempt [] calls =
      attemptLoop t questions bucket gen (topics.take (wantFor questions t))
        (wantFor questions t) fuel (attempt + 1) []
        (calls ++ [⟨wantFor questions t - ([] : List QuizItem).length,
          (questions.filter (fun q => decide (q.type = t))).map (·.question) ++
            ([] : List QuizItem).map (·.question),
          if (topics.take (wantFor questions t)).isEmpty then none
          else some (topics.take (wantFor questions t))⟩]) := by
    intro fuel attempt calls
    rw [attemptLoop_step_ok t questions bucket gen
      (topics.take (wantFor questions t)) (wantFor questions t)
      (by simpa using hw0.ne.symm) (hgen attempt) hnorm]
    rw [hfA, hded]
    simp
  obtain ⟨csf, hloop⟩ : ∃ cs, attemptLoop t questions bucket gen
      (topics.take (wantFor questions t)) (wantFor questions t)
      (1 + MAX_RETRY) 0 [] [] = (.ok [], cs) := by
    rw [show (1 + MAX_RETRY) = 2 + 1 from rfl]
    rw [hstep 2 0 [], hstep 1 1 _, hstep 0 2 _, attemptLoop_zero]
    exact ⟨_, rfl⟩
  refine ⟨hwant, ?_, ?_, ?_⟩ <;>
    simp only [addMoreQuiz_eq context t questions bucket topics gen pb pc hctx hroom,
      hloop, if_pos (show (List.isEmpty ([] : List QuizItem)) = true from rfl)]

/-- C3 witness: the collaborator repeats a record whose item is already
accepted (key registered), so the cycle reports no-new-items and changes
nothing. -/
theorem C3_witness :
    countByType [itemA] QType.mcq ≤ MAX_QUESTIONS - BATCH_SIZE ∧
    (addMoreQuiz "ctx".toList QType.mcq [itemA] [keyFor itemA] [] genConst id
      (fun _ => id)).outcome = .noNewItems ∧
    (addMoreQuiz "ctx".toList QType.mcq [itemA] [keyFor itemA] [] genConst id
      (fun _ => id)).questions = [itemA] ∧
    (addMoreQuiz "ctx".toList QType.mcq [itemA] [keyFor itemA] [] genConst id
      (fun _ => id)).bucket = [keyFor itemA] := by
  have h := C3_no_new_items_when_duplicate "ctx".toList QType.mcq [itemA]
    [keyFor itemA] [] genConst id (fun _ => id) rawA itemA
    (by decide) (by decide) (fun a => rfl) (by decide) (by decide)
    (Or.inl (by decide))
  exact ⟨by decide, h.2.1, h.2.2.1, h.2.2.2⟩

end Edu

namespace Edu

lemma nearDup_itemA_self : nearDupB itemA.question itemA.question = true := by
  rw [nearDupB, decide_eq_true_eq,
    show itemA.question = "ab".toList from rfl,
    similar_self_of_nonempty (Or.inl (by decide))]
  norm_num [NEAR_DUP_TH]

lemma dedupFilter_itemA_fresh :
    dedupFilter (List.filter (fun q => decide (q.type = QType.mcq)) [itemA]) []
      (List.filter (fun q => decide (q.type = QType.mcq)) []) [] = [itemA] := by
  decide

lemma dedupFilter_itemA_repeat :
    dedupFilter (List.filter (fun q => decide (q.type = QType.mcq)) [itemA]) []
      (List.filter (fun q => decide (q.type = QType.mcq)) []) [itemA] = [] := by
  rw [show List.filter (fun q => decide (q.type = QType.mcq)) [itemA] = [itemA]
    from by decide]
  rw [show List.filter (fun q => decide (q.type = QType.mcq))
    ([] : List QuizItem) = [] from rfl]
  simp [dedupFilter, nearDup_itemA_self]

/-- C3 counterexample: with an empty fresh session, the collaborator
returning the same single record on all 3 attempts with `want = 5` does not
produce the no-new-items condition: the item is collected on the first
attempt (its two repeats are then dropped as self-near-duplicates) and the
operation succeeds, appending the item and registering its key. -/
theorem C3_counterexample :
    (addMoreQuiz "ctx".toList QType.mcq [] [] [] genConst id
      (fun _ => id)).outcome = .success [itemA] ∧
    (addMoreQuiz "ctx".toList QType.mcq [] [] [] genConst id
      (fun _ => id)).questions = [itemA] ∧
    (addMoreQuiz "ctx".toList QType.mcq [] [] [] genConst id
      (fun _ => id)).bucket = [keyFor itemA] := by
  have hwant : wantFor [] QType.mcq = 5 := by decide
  obtain ⟨csf, hloop⟩ : ∃ cs, attemptLoop QType.mcq [] [] genConst
      (List.take (wantFor [] QType.mcq) []) (wantFor [] QType.mcq)
      (1 + MAX_RETRY) 0 [] [] = (.ok [itemA], cs) := by
    rw [show (1 + MAX_RETRY) = 2 + 1 from rfl]
    rw [attemptLoop_step_ok QType.mcq [] [] genConst
      (List.take (wantFor [] QType.mcq) []) (wantFor [] QType.mcq)
      (by rw [hwant]; decide) rfl
      (show normalizeFromAPI [rawA] = Except.ok [itemA] from by decide)]
    rw [dedupFilter_itemA_fresh, List.nil_append]
    rw [show (2 : Nat) = 1 + 1 from rfl]
    rw [attemptLoop_step_ok QType.mcq [] [] genConst
      (List.take (wantFor [] QType.mcq) []) (wantFor [] QType.mcq)
      (by rw [hwant]; decide) rfl
      (show normalizeFromAPI [rawA] = Except.ok [itemA] from by decide)]
    rw [dedupFilter_itemA_repeat, List.append_nil]
    rw [show (1 : Nat) = 0 + 1 from rfl]
    rw [attemptLoop_step_ok QType.mcq [] [] genConst
      (List.take (wantFor [] QType.mcq) []) (wantFor [] QType.mcq)
      (by rw [hwant]; decide) rfl
      (show normalizeFromAPI [rawA] = Except.ok [itemA] from by decide)]
    rw [dedupFilter_itemA_repeat, List.append_nil]
    rw [attemptLoop_zero]
    exact ⟨_, rfl⟩
  have hne : ¬ (List.isEmpty [itemA]) = true := by decide
  refine ⟨?_, ?_, ?_⟩ <;>
    simp only [addMoreQuiz_eq "ctx".toList QType.mcq [] [] [] genConst id
      (fun _ => id) (by decide) (by decide), hloop, if_neg hne] <;>
    decide

end Edu
